import Mathlib

/-
Verification of the pulse-oximeter signal pipeline and BLE payload code.

The Python sources are shallowly embedded: Python ints become `Int`
(floor division `//` becomes `Int.fdiv`), Python floats become `ℚ`
(exact arithmetic; the properties below do not depend on binary rounding),
Python lists become `List`, raising functions return `Except`, and the
guarded main loop body becomes an `Option`-returning function.
-/

namespace PulseOx

/-- `moving_average(arr, n, k)` from `lib/oximeter.py` lines 146-179 (the copy in
`oximeter.py` lines 140-173 is identical).  Raises on `k <= 0` and on `k > n`;
otherwise, for each window start `i` in `range(n - k + 1)`, it builds
`values = [num // k for num in arr[i:i+k]]` and appends `sum(values)`.
The slice `arr[i:i+k]` is `(arr.drop i).take k` and `//` is `Int.fdiv`. -/
def moving_average (arr : List Int) (n k : Nat) : Except String (List Int) :=
  if k ≤ 0 then Except.error "Window size k must be positive"
  else if k > n then Except.error "Window size k cannot be larger than the array length n"
  else Except.ok ((List.range (n - k + 1)).map (fun i =>
    (((arr.drop i).take k).map (fun num => Int.fdiv num (k : Int))).sum))

/-- `average_peak_difference(arr, n)` from `lib/oximeter.py` lines 213-232
(identical in `oximeter.py` lines 193-212).  Returns 0 when `n < 2`; otherwise
accumulates `arr[i] - arr[i-1]` for `i in range(1, n)` (written here as the sum
over `i in range(n-1)` of `arr[i+1] - arr[i]`, the same index set shifted by
one) and floor-divides by `n - 1`. -/
def average_peak_difference (arr : List Int) (n : Nat) : Int :=
  if n < 2 then 0
  else Int.fdiv (∑ i ∈ Finset.range (n - 1), (arr.getD (i + 1) 0 - arr.getD i 0))
    ((n : Int) - 1)

/-- The two `bpm` lines of `main.py` (lines 83-85):
`bpm = 60 / ir_ac if ir_ac > 0.01 else 0` followed by
`bpm = max(80, min(bpm, 200)) if bpm > 0 else 0`. -/
def bpm_of (ir_ac : ℚ) : ℚ :=
  let bpm0 : ℚ := if ir_ac > 1 / 100 then 60 / ir_ac else 0
  if bpm0 > 0 then max 80 (min bpm0 200) else 0

/-- `ratio_of_ratio` as computed in `main.py` line 91:
`red_ratio / ir_ratio if ir_ratio != 0 else 0`. -/
def ratio_of_ratio_main ( red_ratio ir_ratio : ℚ) : ℚ :=
  if ir_ratio ≠ 0 then red_ratio / ir_ratio else 0

/-- `ratio_of_ratio` as computed in `lib/oximeter.py` line 411:
`red_ratio / ir_ratio` (unguarded). -/
def ratio_of_ratio_lib ( red_ratio ir_ratio : ℚ) : ℚ := red_ratio / ir_ratio

/-- `ratio_of_ratio` as computed in `oximeter.py` line 326:
`ir_ratio / red_ratio` — note the reversed order relative to the other two
call sites. -/
def ratio_of_ratio_alt ( red_ratio ir_ratio : ℚ) : ℚ := ir_ratio / red_ratio

/-- Modelled from the spec: `R = red_ratio / ir_ratio` with the IR channel
ratio always in the denominator (spec section 4.4); used as the reference
for comparing the three source call sites. -/
def ratio_of_ratio_specR ( red_ratio ir_ratio : ℚ) : ℚ := red_ratio / ir_ratio

/-- `spo2 = 110 - 25 * ratio_of_ratio` (`main.py` line 93, `lib/oximeter.py`
line 416, `oximeter.py` line 331). -/
def spo2_of (r : ℚ) : ℚ := 110 - 25 * r

/-- `_compare_variation(first_amp, second_amp)` nested in
`validate_peak_amplitudes` (`lib/oximeter.py` lines 248-255): percentage
variation `abs((higher - lower) / higher) * 100`, with 0 when both amplitudes
are 0 and 100 when only the higher one is 0. -/
def compare_variation (first_amp second_amp : Int) : ℚ :=
  let higher_peak := max first_amp second_amp
  let lower_peak := min first_amp second_amp
  if higher_peak = 0 then (if lower_peak = 0 then 0 else 100)
  else |((higher_peak : ℚ) - (lower_peak : ℚ)) / (higher_peak : ℚ)| * 100

/-- The `left_variation` of peak `i` in `validate_peak_amplitudes`
(`lib/oximeter.py` lines 262-264): defined only for `i > 0`, comparing the
previous peak amplitude with the current one. -/
def left_variation (sig : List Int) (peaks : List Nat) (i : Nat) : Option ℚ :=
  if 0 < i then
    some (compare_variation (sig.getD (peaks.getD (i - 1) 0) 0) (sig.getD (peaks.getD i 0) 0))
  else none

/-- The `right_variation` of peak `i` in `validate_peak_amplitudes`
(`lib/oximeter.py` lines 265-267): defined only for `i < len(peaks) - 1`,
comparing the next peak amplitude with the current one. -/
def right_variation (sig : List Int) (peaks : List Nat) (i : Nat) : Option ℚ :=
  if i < peaks.length - 1 then
    some (compare_variation (sig.getD (peaks.getD (i + 1) 0) 0) (sig.getD (peaks.getD i 0) 0))
  else none

/-- The acceptance test of `validate_peak_amplitudes` (`lib/oximeter.py`
lines 276-277): `(left_variation is None or left_variation < threshold) or
(right_variation is None or right_variation < threshold)`. -/
def peak_is_valid (sig : List Int) (peaks : List Nat) (threshold : ℚ) (i : Nat) : Bool :=
  (match left_variation sig peaks i with
   | none => true
   | some v => decide (v < threshold)) ||
  (match right_variation sig peaks i with
   | none => true
   | some v => decide (v < threshold))

/-- `validate_peak_amplitudes(moving_average_signal, peak_indices, threshold)`
from `lib/oximeter.py` lines 234-288 (default threshold 60).  Returns
`(False, [])` for fewer than 2 peaks; otherwise walks the peak indices in
order, collecting those accepted by `peak_is_valid`, and reports overall
validity as `valid_count > total_pairs // 2` where `total_pairs` is the
number of peaks. -/
def validate_peak_amplitudes (sig : List Int) (peaks : List Nat) (threshold : ℚ) :
    Bool × List Nat :=
  if peaks.length < 2 then (false, [])
  else
    let valid_idx := (List.range peaks.length).filter (peak_is_valid sig peaks threshold)
    (decide (valid_idx.length > peaks.length / 2), valid_idx.map (fun i => peaks.getD i 0))

/-- The loop body shared by both `find_peaks` variants: when index `i` is a
peak candidate (`cond i`), append it if the accumulator is empty
(`len(peaks) == 0`) or if `i - peaks[-1] >= threshold`; otherwise leave the
accumulator unchanged.  `peaks[-1]` is `getLastD` (the branch is only
reached when the accumulator is non-empty). -/
def peaks_step (cond : Nat → Bool) (threshold : Int) (peaks : List Nat) (i : Nat) : List Nat :=
  if cond i then
    if peaks = [] then peaks ++ [i]
    else if threshold ≤ (i : Int) - (peaks.getLastD 0 : Int) then peaks ++ [i]
    else peaks
  else peaks

/-- `find_peaks(arr, n, threshold)` from `lib/oximeter.py` lines 120-143:
iterate `i` over `range(1, n-1)` and treat `i` as a candidate when
`arr[i] > arr[i-1]` and `arr[i] >= arr[i+1]` (the first element of a plateau
counts as a peak). -/
def find_peaks (arr : List Int) (n : Nat) (threshold : Int) : List Nat :=
  (List.range' 1 (n - 2)).foldl
    (peaks_step (fun i =>
      decide (arr.getD (i - 1) 0 < arr.getD i 0 ∧ arr.getD (i + 1) 0 ≤ arr.getD i 0)) threshold) []

/-- `find_peaks(arr, n, threshold)` from `oximeter.py` lines 116-137: the
same loop, but a candidate must be strictly greater than both neighbors
(`arr[i] > arr[i-1]` and `arr[i] > arr[i+1]`). -/
def find_peaks_strict (arr : List Int) (n : Nat) (threshold : Int) : List Nat :=
  (List.range' 1 (n - 2)).foldl
    (peaks_step (fun i =>
      decide (arr.getD (i - 1) 0 < arr.getD i 0 ∧ arr.getD (i + 1) 0 < arr.getD i 0)) threshold) []

/-- Python `int()` applied to a float: truncation toward zero. -/
def truncQ (q : ℚ) : Int := if q < 0 then ⌈q⌉ else ⌊q⌋

/-- The two bytes of `struct.pack("<H", v)`: an unsigned 16-bit integer in
little-endian order. -/
def pack_u16le (v : Nat) : List Nat := [v % 256, v / 256 % 256]

/-- The payload built by `BLEPulseOximeter.update_spot_check` and
`update_continuous` (`ble_advertising.py` lines 98 and 108):
`struct.pack("<BHH", 0, int(spo2 * 100), int(pulse_rate * 100))`.
`struct.pack` raises when a scaled value is out of the unsigned 16-bit
range, which is modelled as `none`. -/
def plx_encode (spo2 bpm : ℚ) : Option (List Nat) :=
  let s := truncQ (spo2 * 100)
  let b := truncQ (bpm * 100)
  if 0 ≤ s ∧ s < 65536 ∧ 0 ≤ b ∧ b < 65536 then
    some ([0] ++ pack_u16le s.toNat ++ pack_u16le b.toNat)
  else none

/-- Modelled from the spec: the same 5-byte layout but with the scaled
values computed as `round(spo2*100)` and `round(bpm*100)` as the spec's
sentence states, for comparison with the source's truncating `int()`. -/
def plx_encode_rounded (spo2 bpm : ℚ) : Option (List Nat) :=
  let s := round (spo2 * 100)
  let b := round (bpm * 100)
  if 0 ≤ s ∧ s < 65536 ∧ 0 ≤ b ∧ b < 65536 then
    some ([0] ++ pack_u16le s.toNat ++ pack_u16le b.toNat)
  else none

/-- `calculate_variance(arr)` from `lib/oximeter.py` lines 181-193: 0 for
fewer than two elements, else the sample variance
`sum((x - mean) ** 2 for x in arr) / (n - 1)` with `mean = sum(arr) / n`.
In the pipeline it is applied to the integer moving-average signal; the
float arithmetic is embedded as exact rational arithmetic. -/
def calculate_variance (arr : List Int) : ℚ :=
  if arr.length < 2 then 0
  else
    let mean : ℚ := ((arr.map (fun x => (x : ℚ))).sum) / (arr.length : ℚ)
    ((arr.map (fun x => ((x : ℚ) - mean) ^ 2)).sum) / ((arr.length : ℚ) - 1)

/-- The DC level of a channel: `sum(samples) // len(samples)` (`main.py`
lines 46-47; floor division). -/
def dc_level (samples : List Int) : Int :=
  Int.fdiv samples.sum (samples.length : Int)

/-- One acquisition-cycle body of the `main.py` loop (lines 40-98): from the
collected samples and the configuration constants to the `(spo2, bpm)` pair
appended to the reading histories, or `none` when one of the guards fires
`continue` and no estimate is produced.  `main.py` does
`from oximeter import ...`; the signatures it relies on
(`validate_peak_amplitudes` returning a flag/list pair with default
threshold 60) are those of `lib/oximeter.py`, the module embedded here.  A
`moving_average` error (impossible for the deployed constants 500 and 35)
would crash the Python loop; it is modelled as `none`, which likewise
produces no estimate. -/
def main_cycle (ir_samples red_samples : List Int)
    (sample_time_s sample_len filter_window : Nat) (peak_thr : Int) : Option (ℚ × ℚ) :=
  let ir_dc := dc_level ir_samples
  let red_dc := dc_level red_samples
  let processed_ir := ir_samples.map (fun num => num - ir_dc)
  let processed_red := red_samples.map (fun num => num - red_dc)
  match moving_average processed_ir sample_len filter_window,
        moving_average processed_red sample_len filter_window with
  | Except.ok mavg_ir, Except.ok mavg_red =>
    let ir_mavg_variance := calculate_variance mavg_ir
    if ¬ ir_mavg_variance ≤ 35000 then none
    else if ¬ (100 : ℚ) < ir_mavg_variance then none
    else
      let ir_peaks := find_peaks mavg_ir mavg_ir.length peak_thr
      let red_peaks := find_peaks mavg_red mavg_red.length peak_thr
      let irv := validate_peak_amplitudes mavg_ir ir_peaks 60
      let redv := validate_peak_amplitudes mavg_red red_peaks 60
      if ¬ irv.1 = true ∨ ¬ redv.1 = true then none
      else
        let avg_ir_peak_diff :=
          average_peak_difference (irv.2.map (fun i => (i : Int))) irv.2.length
        let avg_red_peak_diff :=
          average_peak_difference (redv.2.map (fun i => (i : Int))) redv.2.length
        let ir_ac : ℚ := (avg_ir_peak_diff : ℚ) * ((sample_time_s : ℚ) / (sample_len : ℚ))
        let red_ac : ℚ := (avg_red_peak_diff : ℚ) * ((sample_time_s : ℚ) / (sample_len : ℚ))
        let bpm := bpm_of ir_ac
        let ir_ratio : ℚ := if ir_dc ≠ 0 then ir_ac / (ir_dc : ℚ) else 0
        let red_ratio : ℚ := if red_dc ≠ 0 then red_ac / (red_dc : ℚ) else 0
        some (spo2_of (ratio_of_ratio_main red_ratio ir_ratio), bpm)
  | _, _ => none

/-- `advertising_payload(limited_disc, br_edr, name, services, appearance)`
from `ble_advertising.py` lines 124-153.  Each `_append(adv_type, value)`
adds `struct.pack("BB", len(value) + 1, adv_type) + value`.  The flags field
comes first; a non-empty name is appended with type 0x09; each service UUID
(as its byte string) is appended with type 3, 5 or 7 according to its
length; a non-zero appearance is appended with type 0x19 as two
little-endian bytes (`struct.pack("<h", ...)`, nonnegative values here). -/
def advertising_payload (limited_disc br_edr : Bool) (name : List Nat)
    (services : List (List Nat)) (appearance : Nat) : List Nat :=
  let flags : Nat := (if limited_disc then 1 else 2) + (if br_edr then 24 else 4)
  let p1 : List Nat := [2, 1, flags]
  let p2 : List Nat := if name ≠ [] then p1 ++ [name.length + 1, 9] ++ name else p1
  let p3 : List Nat := services.foldl (fun p b =>
    if b.length = 2 then p ++ [b.length + 1, 3] ++ b
    else if b.length = 4 then p ++ [b.length + 1, 5] ++ b
    else if b.length = 16 then p ++ [b.length + 1, 7] ++ b
    else p) p2
  if appearance ≠ 0 then p3 ++ [3, 25, appearance % 256, appearance / 256 % 256] else p3

/-- The `decode_field` while loop (`ble_advertising.py` lines 156-163) made
structural on a fuel argument: while at least two bytes remain, a field of
stated length `len` (the byte at the cursor) and type `t` (the next byte)
is examined; on a type match the value bytes `payload[i+2 : i+len+1]` are
collected, and the cursor advances by `1 + len`.  Each iteration consumes at
least one byte, so fuel equal to the payload length always suffices. -/
def decode_field_go (adv_type : Nat) : Nat → List Nat → List (List Nat)
  | 0, _ => []
  | _ + 1, [] => []
  | _ + 1, [_] => []
  | fuel + 1, len :: t :: rest =>
    (if t = adv_type then [((len :: t :: rest).take (len + 1)).drop 2] else []) ++
      decode_field_go adv_type fuel ((t :: rest).drop len)

/-- `decode_field(payload, adv_type)` from `ble_advertising.py` lines
156-163. -/
def decode_field (payload : List Nat) (adv_type : Nat) : List (List Nat) :=
  decode_field_go adv_type payload.length payload

/-- `decode_name(payload)` from `ble_advertising.py` lines 166-168: the
first decoded name field, or the empty string when there is none. -/
def decode_name (payload : List Nat) : List Nat :=
  (decode_field payload 9).headD []

/-- The BLE events dispatched by the two IRQ handlers: event codes 1
(`_IRQ_CENTRAL_CONNECT`), 2 (`_IRQ_CENTRAL_DISCONNECT`) and 20
(`_IRQ_GATTS_INDICATE_DONE`), carrying the connection handle (and a status
for indicate-done). -/
inductive BLEEvent where
  | centralConnect : Nat → BLEEvent
  | centralDisconnect : Nat → BLEEvent
  | gattsIndicateDone : Nat → Nat → BLEEvent
deriving DecidableEq

/-- The connection-related state of a BLE peripheral object: the
`self._connections` set (as a duplicate-free list of handles) and whether
the advertising broadcast is currently running. -/
structure BLEState where
  connections : List Nat
  advertising : Bool
deriving DecidableEq

/-- `set.add`: insert a handle if not already present. -/
def conn_add (c : Nat) (conns : List Nat) : List Nat :=
  if c ∈ conns then conns else conns ++ [c]

/-- `BLEPulseOximeter._irq` (`ble_advertising.py` lines 81-91) as a state
transition.  A connect event stores the handle; a disconnect event removes
it and calls `self._advertise()` (the source comments this line with
"Restart advertising"); indicate-done is a no-op.  Connecting sets
`advertising` to `false`: the transport stops the broadcast automatically
once a central connects, which is why the handler must restart it. -/
def pulseox_irq_step (s : BLEState) (e : BLEEvent) : BLEState :=
  match e with
  | BLEEvent.centralConnect c => ⟨conn_add c s.connections, false⟩
  | BLEEvent.centralDisconnect c => ⟨s.connections.erase c, true⟩
  | BLEEvent.gattsIndicateDone _ _ => s

/-- `BLEHealthService._bt_irq` (`lib/ble_health.py` lines 149-168) as a state
transition.  A connect event stores the handle (advertising stops, as
above); a disconnect event removes the handle and only prints — no call
restarts the advertising broadcast, so `advertising` is left unchanged. -/
def health_irq_step (s : BLEState) (e : BLEEvent) : BLEState :=
  match e with
  | BLEEvent.centralConnect c => ⟨conn_add c s.connections, false⟩
  | BLEEvent.centralDisconnect c => ⟨s.connections.erase c, s.advertising⟩
  | BLEEvent.gattsIndicateDone _ _ => s

end PulseOx

namespace PulseOx

/-- A slice-then-map sum equals the indexed sum over the window, when the
window fits inside the list. -/
theorem slice_map_sum (arr : List Int) (f : Int → Int) (i k : Nat)
    (h : i + k ≤ arr.length) :
    (((arr.drop i).take k).map f).sum = ∑ j ∈ Finset.range k, f (arr.getD (i + j) 0) := by
  have hof : (arr.drop i).take k = List.ofFn (fun j : Fin k => arr.getD (i + (j : Nat)) 0) := by
    apply List.ext_getElem
    · simp only [List.length_take, List.length_drop, List.length_ofFn]
      omega
    · intro m h1 h2
      have hm : m < k := by simpa using h2
      have hims : i + m < arr.length := by omega
      simp only [List.getElem_take, List.getElem_drop, List.getElem_ofFn]
      rw [List.getD_eq_getElem arr 0 hims]
  rw [hof, List.map_ofFn, List.sum_ofFn]
  rw [Finset.sum_range]
  rfl

/-- Claim C1: for an integer list of length `n` and any `1 ≤ k ≤ n`,
`moving_average` succeeds with a list of exactly `n - k + 1` elements whose
`i`-th element is the sum over `j ∈ [i, i+k-1]` of `arr[j]` floor-divided by
`k` — each term of the window is pre-divided by `k` before summation. -/
theorem moving_average_spec (arr : List Int) (n k : Nat)
    (hlen : arr.length = n) (hk1 : 1 ≤ k) (hkn : k ≤ n) :
    ∃ out, moving_average arr n k = Except.ok out ∧
      out.length = n - k + 1 ∧
      ∀ i < n - k + 1,
        out.getD i 0 = ∑ j ∈ Finset.range k, Int.fdiv (arr.getD (i + j) 0) (k : Int) := by
  have hk0 : ¬ k ≤ 0 := by omega
  have hkn2 : ¬ k > n := by omega
  refine ⟨(List.range (n - k + 1)).map (fun i =>
    (((arr.drop i).take k).map (fun num => Int.fdiv num (k : Int))).sum), ?_, ?_, ?_⟩
  · simp only [moving_average, if_neg hk0, if_neg hkn2]
  · simp
  · intro i hi
    have hr : i < (List.range (n - k + 1)).length := by simpa using hi
    rw [List.getD_eq_getElem _ 0 (by simpa using hi)]
    simp only [List.getElem_map, List.getElem_range]
    exact slice_map_sum arr _ i k (by omega)

/-- Witness for C1 at `arr = [1, 2, 3]`, `n = 3`, `k = 2`. -/
theorem moving_average_spec_witness :
    ((([1, 2, 3] : List Int).length = 3) ∧ 1 ≤ 2 ∧ 2 ≤ 3) ∧
    ∃ out, moving_average [1, 2, 3] 3 2 = Except.ok out ∧
      out.length = 3 - 2 + 1 ∧
      ∀ i < 3 - 2 + 1,
        out.getD i 0 = ∑ j ∈ Finset.range 2, Int.fdiv (([1, 2, 3] : List Int).getD (i + j) 0) 2 :=
  ⟨⟨by decide, by decide, by decide⟩, moving_average_spec [1, 2, 3] 3 2 (by decide) (by decide) (by decide)⟩

/-- Claim C10: the loop of `average_peak_difference` sums consecutive
differences, which telescope, so the result is
`(arr[n-1] - arr[0]) // (n-1)`: the average peak spacing depends only on the
first and last element considered and on `n`. -/
theorem average_peak_difference_telescopes (arr : List Int) (n : Nat)
    (h2 : 2 ≤ n) (hlen : n ≤ arr.length) :
    average_peak_difference arr n =
      Int.fdiv (arr.getD (n - 1) 0 - arr.getD 0 0) ((n : Int) - 1) := by
  have hn : ¬ n < 2 := by omega
  have htel : (∑ i ∈ Finset.range (n - 1), (arr.getD (i + 1) 0 - arr.getD i 0))
      = arr.getD (n - 1) 0 - arr.getD 0 0 := by
    simpa using Finset.sum_range_sub (fun i => arr.getD i 0) (n - 1)
  rw [average_peak_difference, if_neg hn, htel]

/-- Witness for C10 at `arr = [1, 3, 6, 10]`, `n = 4` (value 3, as in the
source docstring's example). -/
theorem average_peak_difference_telescopes_witness :
    (2 ≤ 4 ∧ 4 ≤ ([1, 3, 6, 10] : List Int).length) ∧
    average_peak_difference [1, 3, 6, 10] 4 =
      Int.fdiv (([1, 3, 6, 10] : List Int).getD (4 - 1) 0 - ([1, 3, 6, 10] : List Int).getD 0 0)
        ((4 : Int) - 1) :=
  ⟨⟨by decide, by decide⟩, average_peak_difference_telescopes [1, 3, 6, 10] 4 (by decide) (by decide)⟩

/-- Claim C6: `bpm` equals `60 / ir_ac` clamped into `[80, 200]` exactly when
`ir_ac > 0.01`, equals 0 otherwise, and every positive value is within
`[80, 200]`. -/
theorem bpm_clamped (ir_ac : ℚ) :
    (1 / 100 < ir_ac → bpm_of ir_ac = max 80 (min (60 / ir_ac) 200)) ∧
    (¬ 1 / 100 < ir_ac → bpm_of ir_ac = 0) ∧
    (0 < bpm_of ir_ac → 80 ≤ bpm_of ir_ac ∧ bpm_of ir_ac ≤ 200) := by
  by_cases h : 1 / 100 < ir_ac
  · have hpos : (0 : ℚ) < ir_ac := lt_trans (by norm_num) h
    have hdiv : (0 : ℚ) < 60 / ir_ac := by positivity
    have hb : bpm_of ir_ac = max 80 (min (60 / ir_ac) 200) := by
      simp only [bpm_of, if_pos h, if_pos hdiv]
    refine ⟨fun _ => hb, fun hc => absurd h hc, fun _ => ?_⟩
    rw [hb]
    constructor
    · exact le_max_left _ _
    · exact max_le (by norm_num) (le_trans (min_le_right _ _) (by norm_num))
  · have hb : bpm_of ir_ac = 0 := by
      simp only [bpm_of, if_neg h]
      norm_num
    exact ⟨fun hc => absurd hc h, fun _ => hb, fun hp => absurd hp (by rw [hb]; exact lt_irrefl 0)⟩

/-- Witness for C6 at `ir_ac = 1` (bpm clamps to 80) and `ir_ac = 1/200`
(bpm is 0). -/
theorem bpm_clamped_witness :
    ((1 : ℚ) / 100 < 1 ∧ bpm_of 1 = max 80 (min (60 / 1) 200)) ∧
    (¬ (1 : ℚ) / 100 < 1 / 200 ∧ bpm_of (1 / 200) = 0) :=
  ⟨⟨by norm_num, (bpm_clamped 1).1 (by norm_num)⟩,
   ⟨by norm_num, (bpm_clamped (1 / 200)).2.1 (by norm_num)⟩⟩

/-- Counterexample to claim C3 as stated: at `red_ratio = 1`, `ir_ratio = 2`,
the `oximeter.py` line 326 call site computes `ir_ratio / red_ratio = 2`, not
the claimed `red_ratio / ir_ratio = 1/2`, so the IR ratio is not the
denominator in every place the pipeline computes R. -/
theorem ratio_of_ratio_alt_counterexample :
    ratio_of_ratio_alt 1 2 ≠ ratio_of_ratio_specR 1 2 ∧
    ratio_of_ratio_alt 1 2 = 2 ∧ ratio_of_ratio_specR 1 2 = 1 / 2 := by
  refine ⟨?_, ?_, ?_⟩ <;> norm_num [ratio_of_ratio_alt, ratio_of_ratio_specR]

/-- Claim C3 amended: `main.py` (guarded by `ir_ratio != 0`) and
`lib/oximeter.py` compute `R = red_ratio / ir_ratio` with IR in the
denominator, but `oximeter.py` line 326 computes the reciprocal
`ir_ratio / red_ratio`. -/
theorem ratio_of_ratio_sites ( red_ratio ir_ratio : ℚ) :
    ratio_of_ratio_lib red_ratio ir_ratio = ratio_of_ratio_specR red_ratio ir_ratio ∧
    (ir_ratio ≠ 0 → ratio_of_ratio_main red_ratio ir_ratio = ratio_of_ratio_specR red_ratio ir_ratio) ∧
    ratio_of_ratio_alt red_ratio ir_ratio = ratio_of_ratio_specR ir_ratio red_ratio := by
  refine ⟨rfl, fun h => ?_, rfl⟩
  simp only [ratio_of_ratio_main, if_pos h, ratio_of_ratio_specR]

/-- Witness for C3 (amended) at `red_ratio = 1`, `ir_ratio = 2`. -/
theorem ratio_of_ratio_sites_witness :
    ((2 : ℚ) ≠ 0) ∧
    (ratio_of_ratio_lib 1 2 = ratio_of_ratio_specR 1 2 ∧
     ((2 : ℚ) ≠ 0 → ratio_of_ratio_main 1 2 = ratio_of_ratio_specR 1 2) ∧
     ratio_of_ratio_alt 1 2 = ratio_of_ratio_specR 2 1) :=
  ⟨by norm_num, ratio_of_ratio_sites 1 2⟩

/-- When the amplitudes are ordered and the larger one is positive, the
variation is the plain percentage difference. -/
theorem compare_variation_eval (a b : Int) (hab : a ≤ b) (hb : 0 < b) :
    compare_variation a b = ((b : ℚ) - (a : ℚ)) / (b : ℚ) * 100 := by
  have hmax : max a b = b := max_eq_right hab
  have hmin : min a b = a := min_eq_left hab
  have hbz : ¬ (b = 0) := by omega
  have hbq : (0 : ℚ) < (b : ℚ) := by exact_mod_cast hb
  have haq : (a : ℚ) ≤ (b : ℚ) := by exact_mod_cast hab
  simp only [compare_variation, hmax, hmin, if_neg hbz]
  rw [abs_of_nonneg (div_nonneg (sub_nonneg.2 haq) (le_of_lt hbq))]

/-- Any two-element peak list validates: both peaks are edge peaks, and an
edge peak is accepted no matter how large its single defined variation is. -/
theorem validate_two_peaks (sig : List Int) (a b : Nat) (thr : ℚ) :
    validate_peak_amplitudes sig [a, b] thr = (true, [a, b]) := by
  have h0 : peak_is_valid sig [a, b] thr 0 = true := by
    simp [peak_is_valid, left_variation]
  have h1 : peak_is_valid sig [a, b] thr 1 = true := by
    simp [peak_is_valid, right_variation]
  simp [validate_peak_amplitudes, List.range_succ, h0, h1]

/-- Counterexample to claim C2 as stated: on the signal
`[0, 100, 0, 0, 0, 10, 0]` with peaks `[1, 5]`, the first peak (index 1) is
an edge peak whose single defined neighbor variation is 90, which is not
below the threshold 60 — yet both peaks are placed in the valid set, because
the `or` over `left_variation is None` accepts any edge peak outright. -/
theorem validate_edge_counterexample :
    validate_peak_amplitudes [0, 100, 0, 0, 0, 10, 0] [1, 5] 60 = (true, [1, 5]) ∧
    left_variation [0, 100, 0, 0, 0, 10, 0] [1, 5] 0 = none ∧
    right_variation [0, 100, 0, 0, 0, 10, 0] [1, 5] 0 = some 90 ∧
    ¬ (90 : ℚ) < 60 := by
  refine ⟨validate_two_peaks _ 1 5 60, rfl, ?_, by norm_num⟩
  have hcv : compare_variation 10 100 = 90 := by
    rw [compare_variation_eval 10 100 (by omega) (by omega)]
    norm_num
  simp only [right_variation]
  norm_num [hcv]

/-- Claim C2 amended: for at least two peaks, the valid set returned by
`validate_peak_amplitudes` consists exactly of the peaks at positions that
are first, last, or have at least one neighbor variation strictly below the
threshold: edge peaks are always accepted (their missing neighbor counts as
agreement), and only interior peaks are subject to the
at-least-one-variation-below-threshold test. -/
theorem validate_valid_set_characterization (sig : List Int) (peaks : List Nat) (thr : ℚ)
    (h2 : 2 ≤ peaks.length) :
    (validate_peak_amplitudes sig peaks thr).2 =
      ((List.range peaks.length).filter (fun i =>
        decide (i = 0) || decide (i = peaks.length - 1) ||
        decide (compare_variation (sig.getD (peaks.getD (i - 1) 0) 0)
          (sig.getD (peaks.getD i 0) 0) < thr) ||
        decide (compare_variation (sig.getD (peaks.getD (i + 1) 0) 0)
          (sig.getD (peaks.getD i 0) 0) < thr))).map
        (fun i => peaks.getD i 0) := by
  have hlt : ¬ peaks.length < 2 := by omega
  have hpt : ∀ i ∈ List.range peaks.length,
      peak_is_valid sig peaks thr i =
      (decide (i = 0) || decide (i = peaks.length - 1) ||
        decide (compare_variation (sig.getD (peaks.getD (i - 1) 0) 0)
          (sig.getD (peaks.getD i 0) 0) < thr) ||
        decide (compare_variation (sig.getD (peaks.getD (i + 1) 0) 0)
          (sig.getD (peaks.getD i 0) 0) < thr)) := by
    intro i hi
    have hi2 : i < peaks.length := by simpa using hi
    by_cases h0 : i = 0
    · subst h0
      simp [peak_is_valid, left_variation]
    · by_cases hlast : i = peaks.length - 1
      · have hnr : ¬ i < peaks.length - 1 := by omega
        simp [peak_is_valid, right_variation, if_neg hnr, hlast]
      · have hl : 0 < i := by omega
        have hr : i < peaks.length - 1 := by omega
        simp [peak_is_valid, left_variation, right_variation, if_pos hl, if_pos hr, h0, hlast]
  simp only [validate_peak_amplitudes, if_neg hlt]
  rw [List.filter_congr hpt]

/-- Witness for C2 (amended) on the counterexample signal. -/
theorem validate_valid_set_characterization_witness :
    (2 ≤ ([1, 5] : List Nat).length) ∧
    (validate_peak_amplitudes [0, 100, 0, 0, 0, 10, 0] [1, 5] 60).2 =
      ((List.range ([1, 5] : List Nat).length).filter (fun i =>
        decide (i = 0) || decide (i = ([1, 5] : List Nat).length - 1) ||
        decide (compare_variation (([0, 100, 0, 0, 0, 10, 0] : List Int).getD (([1, 5] : List Nat).getD (i - 1) 0) 0)
          (([0, 100, 0, 0, 0, 10, 0] : List Int).getD (([1, 5] : List Nat).getD i 0) 0) < 60) ||
        decide (compare_variation (([0, 100, 0, 0, 0, 10, 0] : List Int).getD (([1, 5] : List Nat).getD (i + 1) 0) 0)
          (([0, 100, 0, 0, 0, 10, 0] : List Int).getD (([1, 5] : List Nat).getD i 0) 0) < 60))).map
        (fun i => ([1, 5] : List Nat).getD i 0) :=
  ⟨by decide, validate_valid_set_characterization [0, 100, 0, 0, 0, 10, 0] [1, 5] 60 (by decide)⟩

/-- For a nonnegative rational, Python truncation coincides with the floor. -/
theorem truncQ_of_nonneg {q : ℚ} (h : 0 ≤ q) : truncQ q = ⌊q⌋ :=
  if_neg (not_lt.2 h)

/-- `int(98.555 * 100)` evaluates to 9855: the fractional half is dropped. -/
theorem truncQ_val_9855 : truncQ ((19711 / 200 : ℚ) * 100) = 9855 := by
  rw [show (19711 / 200 : ℚ) * 100 = 19711 / 2 by norm_num,
    truncQ_of_nonneg (by norm_num), Int.floor_eq_iff]
  norm_num

/-- `round(98.555 * 100)` evaluates to 9856. -/
theorem round_val_9856 : round ((19711 / 200 : ℚ) * 100) = 9856 := by
  rw [show (19711 / 200 : ℚ) * 100 = 19711 / 2 by norm_num, round_eq,
    Int.floor_eq_iff]
  norm_num

/-- `int(72 * 100)` evaluates to 7200. -/
theorem truncQ_val_7200 : truncQ ((72 : ℚ) * 100) = 7200 := by
  rw [show (72 : ℚ) * 100 = 7200 by norm_num, truncQ_of_nonneg (by norm_num),
    Int.floor_eq_iff]
  norm_num

/-- `round(72 * 100)` evaluates to 7200. -/
theorem round_val_7200 : round ((72 : ℚ) * 100) = 7200 := by
  rw [show (72 : ℚ) * 100 = 7200 by norm_num, round_eq, Int.floor_eq_iff]
  norm_num

/-- Counterexample to claim C7 as stated: at `spo2 = 19711/200` (= 98.555)
the scaled value `spo2 * 100 = 9855.5` truncates to 9855 under the source's
`int()`, while `round` gives 9856; the emitted byte string therefore differs
from the claimed round-based encoding. -/
theorem plx_encode_trunc_counterexample :
    plx_encode (19711 / 200) 72 ≠ plx_encode_rounded (19711 / 200) 72 ∧
    plx_encode (19711 / 200) 72 = some [0, 127, 38, 32, 28] ∧
    plx_encode_rounded (19711 / 200) 72 = some [0, 128, 38, 32, 28] := by
  have h1 : plx_encode (19711 / 200) 72 = some [0, 127, 38, 32, 28] := by
    simp only [plx_encode, truncQ_val_9855, truncQ_val_7200]
    norm_num
    rfl
  have h2 : plx_encode_rounded (19711 / 200) 72 = some [0, 128, 38, 32, 28] := by
    simp only [plx_encode_rounded, round_val_9856, round_val_7200]
    norm_num
    rfl
  refine ⟨?_, h1, h2⟩
  rw [h1, h2]
  simp

/-- Claim C7 amended: the transport encoding of a `(spo2, bpm)` pair is
exactly 5 bytes — one flags byte equal to 0, then `int(spo2 * 100)`
(truncation toward zero, not rounding) as a little-endian unsigned 16-bit
integer, then `int(bpm * 100)` likewise; the two bytes of each field
reassemble to the scaled value. -/
theorem plx_encode_layout (spo2 bpm : ℚ)
    (hs0 : 0 ≤ truncQ (spo2 * 100)) (hs1 : truncQ (spo2 * 100) < 65536)
    (hb0 : 0 ≤ truncQ (bpm * 100)) (hb1 : truncQ (bpm * 100) < 65536) :
    plx_encode spo2 bpm = some [0,
        (truncQ (spo2 * 100)).toNat % 256, (truncQ (spo2 * 100)).toNat / 256 % 256,
        (truncQ (bpm * 100)).toNat % 256, (truncQ (bpm * 100)).toNat / 256 % 256] ∧
    (∀ l, plx_encode spo2 bpm = some l → l.length = 5) ∧
    (truncQ (spo2 * 100)).toNat % 256 + 256 * ((truncQ (spo2 * 100)).toNat / 256 % 256)
      = (truncQ (spo2 * 100)).toNat ∧
    (truncQ (bpm * 100)).toNat % 256 + 256 * ((truncQ (bpm * 100)).toNat / 256 % 256)
      = (truncQ (bpm * 100)).toNat := by
  have henc : plx_encode spo2 bpm = some [0,
      (truncQ (spo2 * 100)).toNat % 256, (truncQ (spo2 * 100)).toNat / 256 % 256,
      (truncQ (bpm * 100)).toNat % 256, (truncQ (bpm * 100)).toNat / 256 % 256] := by
    simp only [plx_encode, pack_u16le, if_pos (And.intro hs0 (And.intro hs1 (And.intro hb0 hb1)))]
    rfl
  have hle : ∀ v : Nat, v < 65536 → v % 256 + 256 * (v / 256 % 256) = v := by
    intro v hv
    have hq : v / 256 < 256 := by omega
    rw [Nat.mod_eq_of_lt hq, Nat.mod_add_div]
  have hsN : (truncQ (spo2 * 100)).toNat < 65536 := by omega
  have hbN : (truncQ (bpm * 100)).toNat < 65536 := by omega
  refine ⟨henc, ?_, hle _ hsN, hle _ hbN⟩
  intro l hl
  rw [henc] at hl
  cases hl
  rfl

/-- `int(98.5 * 100)` evaluates to 9850. -/
theorem truncQ_val_9850 : truncQ ((197 / 2 : ℚ) * 100) = 9850 := by
  rw [show (197 / 2 : ℚ) * 100 = 9850 by norm_num, truncQ_of_nonneg (by norm_num),
    Int.floor_eq_iff]
  norm_num

/-- `int(72.25 * 100)` evaluates to 7225. -/
theorem truncQ_val_7225 : truncQ ((289 / 4 : ℚ) * 100) = 7225 := by
  rw [show (289 / 4 : ℚ) * 100 = 7225 by norm_num, truncQ_of_nonneg (by norm_num),
    Int.floor_eq_iff]
  norm_num

/-- Witness for C7 (amended) at `spo2 = 98.5`, `bpm = 72.25`: the payload is
`00 7A 26 39 1C`, the spec's own worked example. -/
theorem plx_encode_layout_witness :
    (0 ≤ truncQ ((197 / 2 : ℚ) * 100) ∧ truncQ ((197 / 2 : ℚ) * 100) < 65536 ∧
     0 ≤ truncQ ((289 / 4 : ℚ) * 100) ∧ truncQ ((289 / 4 : ℚ) * 100) < 65536) ∧
    plx_encode (197 / 2) (289 / 4) = some [0,
        (truncQ ((197 / 2 : ℚ) * 100)).toNat % 256, (truncQ ((197 / 2 : ℚ) * 100)).toNat / 256 % 256,
        (truncQ ((289 / 4 : ℚ) * 100)).toNat % 256, (truncQ ((289 / 4 : ℚ) * 100)).toNat / 256 % 256] ∧
    plx_encode (197 / 2) (289 / 4) = some [0, 122, 38, 57, 28] :=
  ⟨⟨by rw [truncQ_val_9850]; norm_num, by rw [truncQ_val_9850]; norm_num,
    by rw [truncQ_val_7225]; norm_num, by rw [truncQ_val_7225]; norm_num⟩,
   (plx_encode_layout (197 / 2) (289 / 4)
      (by rw [truncQ_val_9850]; norm_num) (by rw [truncQ_val_9850]; norm_num)
      (by rw [truncQ_val_7225]; norm_num) (by rw [truncQ_val_7225]; norm_num)).1,
   by
    rw [(plx_encode_layout (197 / 2) (289 / 4)
      (by rw [truncQ_val_9850]; norm_num) (by rw [truncQ_val_9850]; norm_num)
      (by rw [truncQ_val_7225]; norm_num) (by rw [truncQ_val_7225]; norm_num)).1,
      truncQ_val_9850, truncQ_val_7225]
    rfl⟩

/-- Claim C8, evaluated at the failing scenario: starting from a freshly
set-up service (no connections, advertising) a central connects (the
transport halts the broadcast) and then disconnects.
`BLEHealthService._bt_irq` removes the peer but never restarts advertising,
leaving an empty connection set with no broadcast, while
`BLEPulseOximeter._irq` restarts advertising as the claim requires. -/
theorem health_irq_missing_readvertise :
    health_irq_step (health_irq_step ⟨[], true⟩ (BLEEvent.centralConnect 1))
        (BLEEvent.centralDisconnect 1) = ⟨[], false⟩ ∧
    pulseox_irq_step (pulseox_irq_step ⟨[], true⟩ (BLEEvent.centralConnect 1))
        (BLEEvent.centralDisconnect 1) = ⟨[], true⟩ := by
  constructor <;> rfl

/-- Folding the peak-collection step preserves the invariant "strictly
increasing with consecutive gaps at least `thr`", provided everything already
collected is smaller than every index still to be processed and the remaining
indices are increasing. -/
theorem peaks_foldl_chain (cond : Nat → Bool) (thr : Int) (l : List Nat) :
    ∀ acc : List Nat,
      List.Chain' (fun a b : Nat => a < b ∧ thr ≤ (b : Int) - (a : Int)) acc →
      (∀ x ∈ acc, ∀ j ∈ l, x < j) →
      List.Pairwise (· < ·) l →
      List.Chain' (fun a b : Nat => a < b ∧ thr ≤ (b : Int) - (a : Int))
        (l.foldl (peaks_step cond thr) acc) := by
  induction l with
  | nil =>
    intro acc hc _ _
    simpa using hc
  | cons i l ih =>
    intro acc hc hlt hp
    rw [List.foldl_cons]
    have hmem : ∀ x ∈ peaks_step cond thr acc i, x ∈ acc ∨ x = i := by
      intro x hx
      unfold peaks_step at hx
      split at hx
      · split at hx
        · rcases List.mem_append.1 hx with h | h
          · exact Or.inl h
          · exact Or.inr (by simpa using h)
        · split at hx
          · rcases List.mem_append.1 hx with h | h
            · exact Or.inl h
            · exact Or.inr (by simpa using h)
          · exact Or.inl hx
      · exact Or.inl hx
    have hchain : List.Chain' (fun a b : Nat => a < b ∧ thr ≤ (b : Int) - (a : Int))
        (peaks_step cond thr acc i) := by
      unfold peaks_step
      split
      · split
        · rename_i hnil
          subst hnil
          simp
        · split
          · rename_i hnil hthr
            rw [List.chain'_append]
            refine ⟨hc, List.chain'_singleton _, ?_⟩
            intro x hx y hy
            have hx2 : acc.getLast? = some x := Option.mem_def.1 hx
            have hxa : x ∈ acc := List.mem_of_mem_getLast? hx2
            have hy2 : i = y := by simpa using hy
            subst hy2
            refine ⟨hlt x hxa i (List.mem_cons_self i l), ?_⟩
            have hgl : acc.getLastD 0 = x := by
              rw [List.getLastD_eq_getLast? 0 acc, hx2]
              rfl
            rw [← hgl]
            exact hthr
          · exact hc
      · exact hc
    apply ih _ hchain
    · intro x hx j hj
      rcases hmem x hx with h | h
      · exact hlt x h j (List.mem_cons_of_mem i hj)
      · subst h
        exact List.rel_of_pairwise_cons hp hj
    · exact hp.of_cons

/-- When no index is a candidate peak, the fold leaves the accumulator
unchanged. -/
theorem peaks_foldl_id (cond : Nat → Bool) (thr : Int) (l : List Nat)
    (h : ∀ i ∈ l, cond i = false) :
    ∀ acc, l.foldl (peaks_step cond thr) acc = acc := by
  induction l with
  | nil =>
    intro acc
    rfl
  | cons i l ih =>
    intro acc
    rw [List.foldl_cons]
    have hci : cond i = false := h i (List.mem_cons_self i l)
    have hstep : peaks_step cond thr acc i = acc := by
      unfold peaks_step
      rw [hci]
      simp
    rw [hstep]
    exact ih (fun j hj => h j (List.mem_cons_of_mem i hj)) acc

/-- Claim C5 amended: for both `find_peaks` variants the returned index list
is strictly increasing with consecutive gaps at least `threshold`, and it is
empty for too-short input (`n ≤ 2`), for strictly increasing input and for
nonincreasing input.  For merely nondecreasing (monotone-with-plateau)
input only the strict variant (`oximeter.py`) is guaranteed empty — the
`lib/oximeter.py` plateau tie-break can report a peak on such input. -/
theorem find_peaks_invariants (arr : List Int) (n : Nat) (thr : Int) :
    (List.Chain' (fun a b : Nat => a < b ∧ thr ≤ (b : Int) - (a : Int)) (find_peaks arr n thr) ∧
     List.Chain' (fun a b : Nat => a < b ∧ thr ≤ (b : Int) - (a : Int)) (find_peaks_strict arr n thr)) ∧
    (n ≤ 2 → find_peaks arr n thr = [] ∧ find_peaks_strict arr n thr = []) ∧
    ((∀ m, m + 1 < n → arr.getD m 0 < arr.getD (m + 1) 0) →
      find_peaks arr n thr = [] ∧ find_peaks_strict arr n thr = []) ∧
    ((∀ m, m + 1 < n → arr.getD (m + 1) 0 ≤ arr.getD m 0) →
      find_peaks arr n thr = [] ∧ find_peaks_strict arr n thr = []) ∧
    ((∀ m, m + 1 < n → arr.getD m 0 ≤ arr.getD (m + 1) 0) →
      find_peaks_strict arr n thr = []) := by
  have hrange : ∀ i ∈ List.range' 1 (n - 2), 1 ≤ i ∧ i + 1 < n := by
    intro i hi
    rw [List.mem_range'_1] at hi
    omega
  refine ⟨⟨?_, ?_⟩, ?_, ?_, ?_, ?_⟩
  · exact peaks_foldl_chain _ thr _ [] (by simp) (by simp) (List.pairwise_lt_range' 1 (n - 2))
  · exact peaks_foldl_chain _ thr _ [] (by simp) (by simp) (List.pairwise_lt_range' 1 (n - 2))
  · intro hn
    have h2 : n - 2 = 0 := by omega
    constructor <;> simp [find_peaks, find_peaks_strict, h2]
  · intro hinc
    constructor
    · apply peaks_foldl_id
      intro i hi
      apply decide_eq_false
      rintro ⟨-, h2⟩
      exact absurd (hinc i (hrange i hi).2) (not_lt.2 h2)
    · apply peaks_foldl_id
      intro i hi
      apply decide_eq_false
      rintro ⟨-, h2⟩
      exact absurd (hinc i (hrange i hi).2) (not_lt.2 (le_of_lt h2))
  · intro hdec
    have hkey : ∀ i ∈ List.range' 1 (n - 2), ¬ arr.getD (i - 1) 0 < arr.getD i 0 := by
      intro i hi
      obtain ⟨h1, h2⟩ := hrange i hi
      have := hdec (i - 1) (by omega)
      rw [Nat.sub_add_cancel h1] at this
      exact not_lt.2 this
    constructor
    · apply peaks_foldl_id
      intro i hi
      apply decide_eq_false
      rintro ⟨h1, -⟩
      exact hkey i hi h1
    · apply peaks_foldl_id
      intro i hi
      apply decide_eq_false
      rintro ⟨h1, -⟩
      exact hkey i hi h1
  · intro hnondec
    apply peaks_foldl_id
    intro i hi
    apply decide_eq_false
    rintro ⟨-, h2⟩
    exact absurd (hnondec i (hrange i hi).2) (not_le.2 h2)

/-- Witness for C5 (amended): a two-sample window yields no peaks in either
variant. -/
theorem find_peaks_invariants_witness :
    (2 ≤ 2) ∧ (find_peaks [5, 7] 2 40 = [] ∧ find_peaks_strict [5, 7] 2 40 = []) :=
  ⟨by omega, (find_peaks_invariants [5, 7] 2 40).2.1 (by omega)⟩

/-- Counterexample to claim C5 as stated: `[0, 1, 1]` is monotone
(nondecreasing), yet the `lib/oximeter.py` variant reports index 1 as a
peak, because the plateau tie-break accepts `arr[1] >= arr[2]`; the result
is not the empty list. -/
theorem find_peaks_monotone_counterexample :
    find_peaks [0, 1, 1] 3 40 = [1] ∧
    ([0, 1, 1] : List Int).getD 0 0 ≤ ([0, 1, 1] : List Int).getD 1 0 ∧
    ([0, 1, 1] : List Int).getD 1 0 ≤ ([0, 1, 1] : List Int).getD 2 0 := by
  refine ⟨by decide, by decide, by decide⟩

/-- One unfolding of the `decode_field` scanner on a list with at least two
remaining bytes. -/
theorem decode_field_go_step (adv fuel len t : Nat) (rest : List Nat) :
    decode_field_go adv (fuel + 1) (len :: t :: rest) =
      (if t = adv then [((len :: t :: rest).take (len + 1)).drop 2] else []) ++
        decode_field_go adv fuel ((t :: rest).drop len) := rfl

/-- The scanner returns nothing on an exhausted payload, for any fuel. -/
theorem decode_field_go_nil (adv : Nat) : ∀ fuel, decode_field_go adv fuel [] = []
  | 0 => rfl
  | _ + 1 => rfl

/-- Scanning a flags-then-name payload for type 9 returns exactly the name
bytes: the flags field is skipped by its length prefix, the name field is
extracted, and the cursor then sits at the end of the payload. -/
theorem decode_field_name_payload (flags : Nat) (name : List Nat) :
    decode_field (2 :: 1 :: flags :: (name.length + 1) :: 9 :: name) 9 = [name] := by
  have hlen : (2 :: 1 :: flags :: (name.length + 1) :: 9 :: name).length
      = name.length + 4 + 1 := by
    simp
  rw [decode_field, hlen, decode_field_go_step]
  have h19 : ¬ (1 = 9) := by omega
  rw [if_neg h19, List.nil_append]
  have hdrop2 : (1 :: flags :: (name.length + 1) :: 9 :: name).drop 2
      = (name.length + 1) :: 9 :: name := rfl
  rw [hdrop2,
    show name.length + 4 = name.length + 3 + 1 from rfl,
    decode_field_go_step, if_pos rfl]
  have htake : (((name.length + 1) :: 9 :: name).take (name.length + 1 + 1)).drop 2
      = name := by
    rw [List.take_succ_cons, List.take_succ_cons, List.take_length]
    rfl
  have hdropL : (9 :: name).drop (name.length + 1) = [] := by
    rw [List.drop_succ_cons, List.drop_length]
  rw [htake, hdropL, decode_field_go_nil, List.append_nil]

/-- Claim C9: for every ASCII name of length at most 248 bytes, decoding the
name field from `advertising_payload(name=name)` (all other arguments at
their defaults) yields back exactly that name. -/
theorem advertising_name_roundtrip (name : List Nat)
    (hascii : ∀ b ∈ name, b < 128) (hlen : name.length ≤ 248) :
    decode_name (advertising_payload false false name [] 0) = name := by
  cases name with
  | nil => rfl
  | cons a as =>
    have hne : (a :: as) ≠ [] := by simp
    have hpay : advertising_payload false false (a :: as) [] 0
        = 2 :: 1 :: 6 :: ((a :: as).length + 1) :: 9 :: (a :: as) := by
      simp [advertising_payload, hne]
    rw [decode_name, hpay, decode_field_name_payload]
    rfl

/-- Witness for C9 at `name = "PO"` (bytes `[80, 79]`). -/
theorem advertising_name_roundtrip_witness :
    ((∀ b ∈ ([80, 79] : List Nat), b < 128) ∧ ([80, 79] : List Nat).length ≤ 248) ∧
    decode_name (advertising_payload false false [80, 79] [] 0) = [80, 79] :=
  ⟨⟨by decide, by decide⟩, advertising_name_roundtrip [80, 79] (by decide) (by decide)⟩

/-- `bpm_of` at an AC time constant of 2 seconds: `60 / 2 = 30`, clamped up
to the floor of 80. -/
theorem bpm_of_two : bpm_of 2 = 80 := by
  simp only [bpm_of]
  rw [if_pos (show (2 : ℚ) > 1 / 100 by norm_num),
    show (60 : ℚ) / 2 = 30 by norm_num,
    if_pos (show (30 : ℚ) > 0 by norm_num),
    min_eq_left (show (30 : ℚ) ≤ 200 by norm_num),
    max_eq_left (show (30 : ℚ) ≤ 80 by norm_num)]

/-- Full evaluation of one `main.py` cycle on a 10-sample window (constants
`sample_time_s = 5`, `sample_len = 10`, `filter_window = 1`,
`peak_distance_threshold = 1`): the IR channel passes every gate while the
RED filtered variance is 60000, and the cycle produces the estimate
`(spo2, bpm) = (97.5, 80)`. -/
theorem main_cycle_concrete_eval :
    main_cycle [985, 1000, 1015, 1000, 985, 1000, 1015, 1000, 985, 1015]
        [1700, 2000, 2300, 2000, 1700, 2000, 2300, 2000, 1700, 2300] 5 10 1 1
      = some (195 / 2, 80) := by
  have hdcI : dc_level [985, 1000, 1015, 1000, 985, 1000, 1015, 1000, 985, 1015] = 1000 := by
    decide
  have hdcR : dc_level [1700, 2000, 2300, 2000, 1700, 2000, 2300, 2000, 1700, 2300] = 2000 := by
    decide
  have hmapI : ([985, 1000, 1015, 1000, 985, 1000, 1015, 1000, 985, 1015] : List Int).map
      (fun num => num - (1000 : Int)) = [-15, 0, 15, 0, -15, 0, 15, 0, -15, 15] := by decide
  have hmapR : ([1700, 2000, 2300, 2000, 1700, 2000, 2300, 2000, 1700, 2300] : List Int).map
      (fun num => num - (2000 : Int)) = [-300, 0, 300, 0, -300, 0, 300, 0, -300, 300] := by decide
  have hmaI : moving_average [-15, 0, 15, 0, -15, 0, 15, 0, -15, 15] 10 1
      = Except.ok [-15, 0, 15, 0, -15, 0, 15, 0, -15, 15] := rfl
  have hmaR : moving_average [-300, 0, 300, 0, -300, 0, 300, 0, -300, 300] 10 1
      = Except.ok [-300, 0, 300, 0, -300, 0, 300, 0, -300, 300] := rfl
  have hvarI : calculate_variance [-15, 0, 15, 0, -15, 0, 15, 0, -15, 15] = 150 := by
    norm_num [calculate_variance, List.map, List.sum_cons, List.sum_nil]
  have hpkI : find_peaks [-15, 0, 15, 0, -15, 0, 15, 0, -15, 15] 10 1 = [2, 6] := by decide
  have hpkR : find_peaks [-300, 0, 300, 0, -300, 0, 300, 0, -300, 300] 10 1 = [2, 6] := by decide
  have hvalI : validate_peak_amplitudes [-15, 0, 15, 0, -15, 0, 15, 0, -15, 15] [2, 6] 60
      = (true, [2, 6]) := validate_two_peaks _ 2 6 60
  have hvalR : validate_peak_amplitudes [-300, 0, 300, 0, -300, 0, 300, 0, -300, 300] [2, 6] 60
      = (true, [2, 6]) := validate_two_peaks _ 2 6 60
  have hapd : average_peak_difference [2, 6] 2 = 4 := by decide
  simp only [main_cycle, hdcI, hdcR, hmapI, hmapR, hmaI, hmaR]
  norm_num [hvarI, hpkI, hpkR, hvalI, hvalR, hapd, bpm_of_two, ratio_of_ratio_main, spo2_of]

/-- Counterexample to claim C4 as stated: on this window the RED-channel
filtered variance is 60000, outside `(100, 35000]`, yet the cycle still
produces an SpO2 estimate — `main.py` lines 55-61 gate only the IR-channel
variance and never check the RED channel. -/
theorem main_cycle_red_variance_counterexample :
    main_cycle [985, 1000, 1015, 1000, 985, 1000, 1015, 1000, 985, 1015]
        [1700, 2000, 2300, 2000, 1700, 2000, 2300, 2000, 1700, 2300] 5 10 1 1
      = some (195 / 2, 80) ∧
    moving_average (([1700, 2000, 2300, 2000, 1700, 2000, 2300, 2000, 1700, 2300] : List Int).map
        (fun num => num - dc_level [1700, 2000, 2300, 2000, 1700, 2000, 2300, 2000, 1700, 2300]))
        10 1
      = Except.ok [-300, 0, 300, 0, -300, 0, 300, 0, -300, 300] ∧
    calculate_variance [-300, 0, 300, 0, -300, 0, 300, 0, -300, 300] = 60000 ∧
    ¬ ((100 : ℚ) < 60000 ∧ (60000 : ℚ) ≤ 35000) := by
  refine ⟨main_cycle_concrete_eval, ?_, ?_, by norm_num⟩
  · rw [show dc_level [1700, 2000, 2300, 2000, 1700, 2000, 2300, 2000, 1700, 2300] = 2000
        from by decide]
    rw [show ([1700, 2000, 2300, 2000, 1700, 2000, 2300, 2000, 1700, 2300] : List Int).map
        (fun num => num - (2000 : Int)) = [-300, 0, 300, 0, -300, 0, 300, 0, -300, 300]
        from by decide]
    rfl
  · norm_num [calculate_variance, List.map, List.sum_cons, List.sum_nil]

/-- Claim C4 amended: whenever an acquisition cycle produces an SpO2/BPM
estimate, the filtered IR-channel variance lies in `(100, 35000]` and both
channels' peak validations passed; the RED-channel variance, however, is not
part of the gate (see the counterexample). -/
theorem main_cycle_gates (ir red : List Int) (ts sl fw : Nat) (pt : Int) (out : ℚ × ℚ)
    (h : main_cycle ir red ts sl fw pt = some out) :
    ∃ mavg_ir mavg_red,
      moving_average (ir.map (fun num => num - dc_level ir)) sl fw = Except.ok mavg_ir ∧
      moving_average (red.map (fun num => num - dc_level red)) sl fw = Except.ok mavg_red ∧
      100 < calculate_variance mavg_ir ∧ calculate_variance mavg_ir ≤ 35000 ∧
      (validate_peak_amplitudes mavg_ir (find_peaks mavg_ir mavg_ir.length pt) 60).1 = true ∧
      (validate_peak_amplitudes mavg_red (find_peaks mavg_red mavg_red.length pt) 60).1 = true := by
  simp only [main_cycle] at h
  split at h
  · rename_i mavg_ir mavg_red hir hred
    split at h
    · simp at h
    · rename_i hv1
      split at h
      · simp at h
      · rename_i hv2
        split at h
        · simp at h
        · rename_i hflag
          rw [not_or, not_not, not_not] at hflag
          exact ⟨mavg_ir, mavg_red, hir, hred, not_not.1 hv2, not_not.1 hv1,
            hflag.1, hflag.2⟩
  · simp at h

/-- Witness for C4 (amended) on the concrete 10-sample window. -/
theorem main_cycle_gates_witness :
    (main_cycle [985, 1000, 1015, 1000, 985, 1000, 1015, 1000, 985, 1015]
        [1700, 2000, 2300, 2000, 1700, 2000, 2300, 2000, 1700, 2300] 5 10 1 1
      = some (195 / 2, 80)) ∧
    (∃ mavg_ir mavg_red,
      moving_average (([985, 1000, 1015, 1000, 985, 1000, 1015, 1000, 985, 1015] : List Int).map
          (fun num => num - dc_level [985, 1000, 1015, 1000, 985, 1000, 1015, 1000, 985, 1015]))
          10 1 = Except.ok mavg_ir ∧
      moving_average (([1700, 2000, 2300, 2000, 1700, 2000, 2300, 2000, 1700, 2300] : List Int).map
          (fun num => num - dc_level [1700, 2000, 2300, 2000, 1700, 2000, 2300, 2000, 1700, 2300]))
          10 1 = Except.ok mavg_red ∧
      100 < calculate_variance mavg_ir ∧ calculate_variance mavg_ir ≤ 35000 ∧
      (validate_peak_amplitudes mavg_ir (find_peaks mavg_ir mavg_ir.length 1) 60).1 = true ∧
      (validate_peak_amplitudes mavg_red (find_peaks mavg_red mavg_red.length 1) 60).1 = true) :=
  ⟨main_cycle_concrete_eval,
   main_cycle_gates _ _ 5 10 1 1 (195 / 2, 80) main_cycle_concrete_eval⟩

end PulseOx
